import Mathlib

/-!
Verification of the azurerm provider slice: the network security group
resource, the automation account resource, and the container registry name
validation.  Go functions are shallowly embedded as Lean functions; the
`*schema.ResourceData` value is embedded as an explicit `ResData` record that
handlers thread through, client calls are embedded as pre-recorded outcome
scripts consumed positionally, and a Go runtime panic (nil pointer
dereference, failed type assertion, out-of-range index) is embedded as
`Option.none` at the handler's result type.  Side effects that matter to the
claims (lock acquire/release, API calls, `d.SetId`) are recorded in an event
trace returned by each handler.
-/

/-! ## Container registry name validation -/

/-- Number of bytes of the UTF-8 encoding of a character, so that
`goStringLen` below matches Go's byte-counting `len` on strings. -/
def charUtf8Bytes (c : Char) : Nat :=
  if c.val < 0x80 then 1
  else if c.val < 0x800 then 2
  else if c.val < 0x10000 then 3
  else 4

/-- Go's `len` on a string: the number of bytes of its UTF-8 encoding. -/
def goStringLen (s : String) : Nat :=
  s.data.foldl (fun n c => n + charUtf8Bytes c) 0

/-- Go's regex `^[a-zA-Z0-9]*$`: every character is an ASCII letter or
digit. -/
def allAlphanum (s : String) : Bool :=
  s.data.all Char.isAlphanum

/-- Modelled from the spec: `validateAzureRMContainerRegistryName` is not under
`src/` (only its test table is, in the container registry test file); the spec
calls it "a simple regex/length check".  Following the validator idiom used
throughout this provider, each failed check appends its own error: an
alphanumeric-only check (regex `[a-zA-Z0-9]*` anchored at both ends), a
minimum-length check (fewer than 5 bytes is an error) and a maximum-length
check (50 bytes or more is an error).  The Go function returns `(ws []string,
errors []error)`; errors are embedded as their message strings. -/
def validateAzureRMContainerRegistryName (value : String) (k : String) :
    List String × List String :=
  let errors : List String :=
    if allAlphanum value then []
    else ["alpha numeric characters only are allowed in " ++ k]
  let errors := errors ++
    (if goStringLen value < 5 then
      [k ++ " cannot be less than 5 characters"] else [])
  let errors := errors ++
    (if 50 ≤ goStringLen value then
      [k ++ " cannot be longer than 50 characters"] else [])
  ([], errors)

/-- Number of validation errors produced for a candidate registry name. -/
def registryNameErrCount (value : String) : Nat :=
  (validateAzureRMContainerRegistryName value "azurerm_container_registry").2.length

/-- Predicate of the claim: the name consists solely of ASCII letters and
digits and its length is within the allowed bounds (at least 5 and at most 49
bytes). -/
def registryNameWellFormed (value : String) : Prop :=
  allAlphanum value = true ∧ 5 ≤ goStringLen value ∧ goStringLen value ≤ 49

instance (value : String) : Decidable (registryNameWellFormed value) := by
  unfold registryNameWellFormed; infer_instance

theorem registryNameErrCount_eq (value : String) :
    registryNameErrCount value =
      (if allAlphanum value then 0 else 1) +
      ((if goStringLen value < 5 then 1 else 0) +
       (if 50 ≤ goStringLen value then 1 else 0)) := by
  unfold registryNameErrCount validateAzureRMContainerRegistryName
  split <;> split <;> split <;> simp [List.length_append]

theorem registryName_zero_iff (value : String) :
    registryNameErrCount value = 0 ↔ registryNameWellFormed value := by
  rw [registryNameErrCount_eq]
  unfold registryNameWellFormed
  constructor
  · intro h
    by_cases ha : allAlphanum value
    · by_cases hlo : goStringLen value < 5
      · simp [ha, hlo] at h
      · by_cases hhi : 50 ≤ goStringLen value
        · simp [ha, hlo, hhi] at h
        · exact ⟨ha, by omega, by omega⟩
    · simp [ha] at h
  · rintro ⟨ha, hlo, hhi⟩
    rw [if_pos ha, if_neg (by omega : ¬ goStringLen value < 5),
      if_neg (by omega : ¬ 50 ≤ goStringLen value)]

theorem registryName_pos_of_not_wellFormed (value : String)
    (h : ¬ registryNameWellFormed value) : 1 ≤ registryNameErrCount value := by
  rcases Nat.eq_zero_or_pos (registryNameErrCount value) with h0 | h0
  · exact absurd ((registryName_zero_iff value).mp h0) h
  · exact h0

/-- C2, counterexample.  The claim says the validator "returns exactly one
error otherwise"; the name `"a-"` is neither alphanumeric-only nor long
enough, and the validator returns two errors (one per failed check), not
one. -/
theorem c2_counterexample_exactly_one_error :
    ¬ registryNameWellFormed "a-" ∧ registryNameErrCount "a-" = 2 := by
  constructor
  · decide
  · rfl

/-- C2, amended.  `validateAzureRMContainerRegistryName` returns no errors if
and only if the name consists solely of ASCII letters and digits and its
length is between 5 and 49 bytes, and returns at least one error otherwise
(one per failed check, so a name failing both the character check and a
length check yields two errors); every case of the test table yields the
count the test expects: "four", "hello-world", "hello_world", "hello@world"
and the 50-character alphanumeric name each yield exactly one error, while
"5five", "helloWorld", "helloworld12" and the 48- and 49-character
alphanumeric names yield none. -/
theorem c2_container_registry_name_validation_amended :
    (∀ v : String, registryNameErrCount v = 0 ↔ registryNameWellFormed v) ∧
    (∀ v : String, ¬ registryNameWellFormed v → 1 ≤ registryNameErrCount v) ∧
    registryNameErrCount "four" = 1 ∧
    registryNameErrCount "5five" = 0 ∧
    registryNameErrCount "hello-world" = 1 ∧
    registryNameErrCount "hello_world" = 1 ∧
    registryNameErrCount "helloWorld" = 0 ∧
    registryNameErrCount "helloworld12" = 0 ∧
    registryNameErrCount "hello@world" = 1 ∧
    goStringLen "qfvbdsbvipqdbwsbddbdcwqffewsqwcdw21ddwqwd3324120" = 48 ∧
    registryNameErrCount "qfvbdsbvipqdbwsbddbdcwqffewsqwcdw21ddwqwd3324120" = 0 ∧
    goStringLen "qfvbdsbvipqdbwsbddbdcwqffewsqwcdw21ddwqwd33241202" = 49 ∧
    registryNameErrCount "qfvbdsbvipqdbwsbddbdcwqffewsqwcdw21ddwqwd33241202" = 0 ∧
    goStringLen "qfvbdsbvipqdbwsbddbdcwqfjjfewsqwcdw21ddwqwd3324120" = 50 ∧
    registryNameErrCount "qfvbdsbvipqdbwsbddbdcwqfjjfewsqwcdw21ddwqwd3324120" = 1 := by
  refine ⟨registryName_zero_iff, registryName_pos_of_not_wellFormed, ?_⟩
  repeat' constructor

/-- C2, witness for the amended theorem: its second conjunct applied at the
concrete name `"a-"`. -/
theorem c2_validation_witness : 1 ≤ registryNameErrCount "a-" :=
  c2_container_registry_name_validation_amended.2.1 "a-" (by decide)

/-! ## Security rules: SDK shapes, expand and flatten

Embedding conventions for this section: an SDK pointer field `*T` is
`Option T` (`none` is Go `nil`), the SDK string enums `SecurityRuleAccess`,
`SecurityRuleDirection` and `SecurityRuleProtocol` are `String`, and a rule
attribute map `map[string]interface{}` is a record whose key is present
exactly when the field is `some`.  Field names ending in `Pfx` stand for the
Go names `SourceAddressPrefix` / `DestinationAddressPrefix` and the map keys
`source_address_prefix` / `destination_address_prefix`. -/

/-- Go conversion `int32(n)` on a Go `int`: wraparound into `[-2^31, 2^31)`. -/
def toInt32 (n : Int) : Int := (n + 2 ^ 31) % 2 ^ 32 - 2 ^ 31

/-- SDK `network.SecurityRulePropertiesFormat` (the fields this code uses). -/
structure SecurityRulePropertiesFormat where
  sourcePortRange : Option String := none
  destinationPortRange : Option String := none
  sourceAddressPfx : Option String := none
  destinationAddressPfx : Option String := none
  priority : Option Int := none
  access : String := ""
  direction : String := ""
  protocol : String := ""
  description : Option String := none
deriving DecidableEq, Repr

/-- SDK `network.SecurityRule`. -/
structure SecurityRule where
  name : Option String := none
  properties : Option SecurityRulePropertiesFormat := none
deriving DecidableEq, Repr

/-- A security-rule attribute map (`map[string]interface{}` with the schema's
keys, string-valued except the int-valued `priority`). -/
structure SecurityRuleAttrs where
  name : Option String := none
  sourcePortRange : Option String := none
  destinationPortRange : Option String := none
  sourceAddressPfx : Option String := none
  destinationAddressPfx : Option String := none
  priority : Option Int := none
  access : Option String := none
  direction : Option String := none
  protocol : Option String := none
  description : Option String := none
deriving DecidableEq, Repr

/-- One iteration of the loop of `expandAzureRmSecurityRules`: reads every
schema field of one rule map with a `data[k].(T)` type assertion, which
panics (embedded as `none`) when the key is absent; the description is copied
into the properties only when non-empty; the priority goes through Go's
`int32(...)` conversion. -/
def expandRule (data : SecurityRuleAttrs) : Option SecurityRule := do
  let name ← data.name
  let source_port_range ← data.sourcePortRange
  let destination_port_range ← data.destinationPortRange
  let source_address ← data.sourceAddressPfx
  let destination_address ← data.destinationAddressPfx
  let priorityInt ← data.priority
  let access ← data.access
  let direction ← data.direction
  let protocol ← data.protocol
  let descr ← data.description
  let properties : SecurityRulePropertiesFormat :=
    { sourcePortRange := some source_port_range
      destinationPortRange := some destination_port_range
      sourceAddressPfx := some source_address
      destinationAddressPfx := some destination_address
      priority := some (toInt32 priorityInt)
      access := access
      direction := direction
      protocol := protocol
      description := if descr = "" then none else some descr }
  some { name := some name, properties := some properties }

/-- The loop of `expandAzureRmSecurityRules` over the whole rule list. -/
def expandRules : List SecurityRuleAttrs → Option (List SecurityRule)
  | [] => some []
  | data :: rest => do
    let rule ← expandRule data
    let rules ← expandRules rest
    some (rule :: rules)

/-- `expandAzureRmSecurityRules`: builds the SDK rule list from the
`security_rule` attribute value and always returns a `nil` error (the second
component); `none` embeds a panic in one of the per-rule type assertions. -/
def expandAzureRmSecurityRules (sgRules : List SecurityRuleAttrs) :
    Option (List SecurityRule × Option String) := do
  let rules ← expandRules sgRules
  some (rules, none)

/-- One iteration of the loop of `flattenNetworkSecurityRules`: `*rule.Name`
and `*props.Priority` dereference pointers and panic on `nil` (embedded as
`none`); the conditionally-set keys are present exactly when their pointer is
non-nil; with nil properties only the `name` key is set. -/
def flattenRule (rule : SecurityRule) : Option SecurityRuleAttrs := do
  let name ← rule.name
  match rule.properties with
  | none => some { name := some name }
  | some props => do
    let priorityVal ← props.priority
    some { name := some name
           destinationAddressPfx := props.destinationAddressPfx
           destinationPortRange := props.destinationPortRange
           sourceAddressPfx := props.sourceAddressPfx
           sourcePortRange := props.sourcePortRange
           priority := some priorityVal
           access := some props.access
           direction := some props.direction
           protocol := some props.protocol
           description := props.description }

/-- The loop of `flattenNetworkSecurityRules` over the whole rule list. -/
def flattenRules : List SecurityRule → Option (List SecurityRuleAttrs)
  | [] => some []
  | r :: rest => do
    let a ← flattenRule r
    let rest' ← flattenRules rest
    some (a :: rest')

/-- `flattenNetworkSecurityRules`: a nil rule list pointer flattens to the
empty list. -/
def flattenNetworkSecurityRules (rules : Option (List SecurityRule)) :
    Option (List SecurityRuleAttrs) :=
  match rules with
  | none => some []
  | some rs => flattenRules rs

/-- The schema validator `validation.IntBetween(lo, hi)` accepts `v` (both
bounds inclusive). -/
def validationIntBetween (lo hi v : Int) : Bool :=
  decide (lo ≤ v) && decide (v ≤ hi)

/-- Hypothesis of the round-trip claim: every schema field of the rule map is
present, the description is a non-empty string, and the priority is in the
range the schema validates (`validation.IntBetween(100, 4096)`). -/
def ruleConfigComplete : SecurityRuleAttrs → Bool
  | ⟨some _, some _, some _, some _, some _, some p, some _, some _, some _,
     some dsc⟩ => validationIntBetween 100 4096 p && (dsc != "")
  | _ => false

theorem toInt32_eq_self (p : Int) (hlo : -(2 ^ 31) ≤ p) (hhi : p < 2 ^ 31) :
    toInt32 p = p := by
  unfold toInt32
  rw [Int.emod_eq_of_lt (by omega) (by omega)]
  omega

theorem flattenRule_expandRule (c : SecurityRuleAttrs)
    (h : ruleConfigComplete c = true) :
    ∃ r, expandRule c = some r ∧ flattenRule r = some c := by
  unfold ruleConfigComplete at h
  split at h
  case _ n spr dpr sap dap p ac di pro dsc =>
    simp only [validationIntBetween, Bool.and_eq_true, decide_eq_true_eq,
      bne_iff_ne, ne_eq] at h
    obtain ⟨⟨h100, h4096⟩, hde⟩ := h
    refine ⟨_, rfl, ?_⟩
    simp only [expandRule, flattenRule, Option.bind_eq_bind, Option.bind_eq_bind' , Option.some_bind' ]
    rw [if_neg hde]
    rw [toInt32_eq_self p (by omega) (by omega)]
  case _ => exact absurd h (by simp)

theorem flattenRules_expandRules (cfgs : List SecurityRuleAttrs)
    (h : ∀ c ∈ cfgs, ruleConfigComplete c = true) :
    ∃ rules, expandRules cfgs = some rules ∧ flattenRules rules = some cfgs := by
  induction cfgs with
  | nil => exact ⟨[], rfl, rfl⟩
  | cons c rest ih =>
    obtain ⟨r, hr, hfr⟩ := flattenRule_expandRule c (h c (List.mem_cons_self c rest))
    obtain ⟨rules, hrules, hfrules⟩ := ih (fun c' hc' => h c' (List.mem_cons_of_mem c hc'))
    refine ⟨r :: rules, ?_, ?_⟩
    · simp [expandRules, hr, hrules]
    · simp [flattenRules, hfr, hfrules]

/-- C1: for every list of security-rule attribute maps in which each schema
field is present, the priority is within the schema-validated range and the
description is a non-empty string, `expandAzureRmSecurityRules` succeeds with
a nil error and `flattenNetworkSecurityRules` applied to its result returns
the same list of rule attribute maps, in the same order, with every field
value preserved. -/
theorem c1_security_rule_round_trip (cfgs : List SecurityRuleAttrs)
    (h : ∀ c ∈ cfgs, ruleConfigComplete c = true) :
    ∃ rules, expandAzureRmSecurityRules cfgs = some (rules, none) ∧
      flattenNetworkSecurityRules (some rules) = some cfgs := by
  obtain ⟨rules, hrules, hflat⟩ := flattenRules_expandRules cfgs h
  exact ⟨rules, by simp [expandAzureRmSecurityRules, hrules], hflat⟩

/-- A concrete complete rule configuration used by the round-trip witness. -/
def sampleRuleConfig : SecurityRuleAttrs :=
  { name := some "rule1"
    sourcePortRange := some "*"
    destinationPortRange := some "80"
    sourceAddressPfx := some "10.0.0.0/16"
    destinationAddressPfx := some "*"
    priority := some 100
    access := some "Allow"
    direction := some "Inbound"
    protocol := some "Tcp"
    description := some "allow http" }

/-- C1, witness: the round-trip theorem applied to a one-element concrete rule
list. -/
theorem c1_round_trip_witness :
    ∃ rules, expandAzureRmSecurityRules [sampleRuleConfig] = some (rules, none) ∧
      flattenNetworkSecurityRules (some rules) = some [sampleRuleConfig] :=
  c1_security_rule_round_trip [sampleRuleConfig] (by decide)

/-! ## Shared infrastructure: resource IDs, HTTP responses, tags, locations -/

/-- A parsed Azure resource ID: the resource group plus the key/value path
(`id.Path`).  Mirrors the result type of `parseAzureResourceID`. -/
structure ParsedId where
  resourceGroup : String
  path : List (String × String)
deriving DecidableEq, Repr

/-- Go map indexing `id.Path[k]`: a missing key yields the zero value `""`. -/
def ParsedId.pathGet (id : ParsedId) (k : String) : String :=
  ((id.path.find? (fun p => p.1 == k)).map (fun p => p.2)).getD ""

/-- An Azure resource ID string, embedded abstractly by its parse behaviour:
the empty string (a cleared ID), a string that does not parse as a resource
ID, or a string that parses to a resource group plus path. -/
inductive IdStr where
  | empty : IdStr
  | unparseable : String → IdStr
  | parseable : ParsedId → IdStr
deriving DecidableEq, Repr

/-- Modelled from the spec: `parseAzureResourceID` is a helper of this
provider that is not under `src/`; it splits an Azure resource ID string into
the subscription, resource group and key/value path components and fails on a
malformed string.  Over the abstract `IdStr` it succeeds exactly on the
parseable kind. -/
def parseAzureResourceID : IdStr → Except String ParsedId
  | .empty => .error "Cannot parse Azure Id: id is empty"
  | .unparseable s => .error ("Cannot parse Azure Id: " ++ s)
  | .parseable pid => .ok pid

/-- The part of an `autorest.Response` the handlers inspect. -/
structure HttpResponse where
  statusCode : Nat
deriving DecidableEq, Repr

/-- The zero-valued response embedded in an SDK result struct that was never
filled in. -/
def HttpResponse.zero : HttpResponse := ⟨0⟩

/-- Modelled from the spec: `utils.ResponseWasNotFound` is a helper of this
provider that is not under `src/`; it reports whether the response carries
HTTP status 404 Not Found. -/
def responseWasNotFound (resp : HttpResponse) : Bool :=
  resp.statusCode == 404

/-- A tags map, in association-list form. -/
abbrev Tags := List (String × String)

/-- Modelled from the spec: `expandTags` is a helper of this provider that is
not under `src/`; it converts the configuration tags map into the API tags
map value-preservingly, embedded as the identity on the association-list
representation. -/
def expandTags (tags : Tags) : Tags := tags

/-- Modelled from the spec: `flattenAndSetTags` is a helper of this provider
that is not under `src/`; it writes the API tags map back into the `tags`
attribute; a nil map flattens to the empty map. -/
def flattenTags (tags : Option Tags) : Tags := tags.getD []

/-- Go's `strings.ToLower` on a string, over the character list (ASCII case
folding via `Char.toLower`). -/
def goToLower (s : String) : String :=
  String.mk (s.data.map Char.toLower)

/-- Modelled from the spec: `azureRMNormalizeLocation` is a helper of this
provider that is not under `src/`; it lower-cases the location name and
strips its spaces. -/
def azureRMNormalizeLocation (location : String) : String :=
  String.mk ((goToLower location).data.filter (fun c => c ≠ ' '))

/-! ## SDK result shapes for the two resources -/

/-- SDK `network.SecurityGroupPropertiesFormat` (the fields this code
uses). -/
structure SecurityGroupPropertiesFormat where
  securityRules : Option (List SecurityRule) := none
  provisioningState : Option String := none
deriving DecidableEq, Repr

/-- SDK `network.SecurityGroup`, as returned by the security-group client's
`Get` and as built by the create handler. -/
structure SecurityGroup where
  response : HttpResponse := HttpResponse.zero
  id : Option IdStr := none
  name : Option String := none
  location : Option String := none
  properties : Option SecurityGroupPropertiesFormat := none
  tags : Option Tags := none
deriving DecidableEq, Repr

/-- SDK `automation.Sku` (`Name` is the string enum `SkuNameEnum`). -/
structure Sku where
  name : String
deriving DecidableEq, Repr

/-- SDK `automation.Account`, as returned by the automation client's `Get`. -/
structure AutomationAccount where
  response : HttpResponse := HttpResponse.zero
  id : Option IdStr := none
  name : Option String := none
  location : Option String := none
  sku : Option Sku := none
  tags : Option Tags := none
deriving DecidableEq, Repr

/-- SDK `automation.AccountCreateOrUpdateProperties`. -/
structure AccountCreateOrUpdateProperties where
  sku : Option Sku
deriving DecidableEq, Repr

/-- SDK `automation.AccountCreateOrUpdateParameters`. -/
structure AccountCreateOrUpdateParameters where
  properties : Option AccountCreateOrUpdateProperties
  location : Option String
  tags : Option Tags
deriving DecidableEq, Repr

/-! ## Events, resource state, call scripts -/

/-- The observable side effects of a handler run, in order: the named-lock
acquire/release pairs (`azureRMLockByName` / `azureRMUnlockByName`, helpers
of this provider not under `src/`, recorded as events), the client API calls,
and `d.SetId`. -/
inductive Event where
  | lockByName : String → String → Event
  | unlockByName : String → String → Event
  | nsgCreateOrUpdate : String → String → SecurityGroup → Event
  | nsgGet : String → String → Event
  | nsgDeleteCall : String → String → Event
  | accountCreateOrUpdate : String → String → AccountCreateOrUpdateParameters → Event
  | accountGet : String → String → Event
  | accountDeleteCall : String → String → Event
  | setId : IdStr → Event
deriving DecidableEq, Repr

/-- Whether an event is a client API call. -/
def Event.isApiCall : Event → Bool
  | .nsgCreateOrUpdate _ _ _ => true
  | .nsgGet _ _ => true
  | .nsgDeleteCall _ _ => true
  | .accountCreateOrUpdate _ _ _ => true
  | .accountGet _ _ => true
  | .accountDeleteCall _ _ => true
  | _ => false

/-- Whether a trace contains a named-lock acquire. -/
def hasLockEvent (evs : List Event) : Bool :=
  evs.any (fun e => match e with
    | .lockByName _ _ => true
    | _ => false)

/-- Whether a trace contains an API call. -/
def hasApiCall (evs : List Event) : Bool :=
  evs.any Event.isApiCall

/-- Whether a trace contains a `d.SetId` write. -/
def hasSetId (evs : List Event) : Bool :=
  evs.any (fun e => match e with
    | .setId _ => true
    | _ => false)

/-- A `sku` block attribute map (`map[string]interface{}`): the `name` key is
present exactly when the field is `some`. -/
structure SkuAttrs where
  name : Option String := none
deriving DecidableEq, Repr

/-- The `*schema.ResourceData` of a single resource instance: its ID plus the
schema attributes the two resources read and write.  `securityRule` holds the
`security_rule` list (used by the network security group), `sku` holds the
one-element `sku` list (used by the automation account). -/
structure ResData where
  id : IdStr := .empty
  name : String := ""
  location : String := ""
  resourceGroupName : String := ""
  tags : Tags := []
  securityRule : List SecurityRuleAttrs := []
  sku : List SkuAttrs := []
deriving DecidableEq, Repr

/-- The errors a handler can return.  `client` is an SDK client error
returned unchanged; the rest correspond to the handler's `fmt.Errorf`
branches and to `parseAzureResourceID` failures. -/
inductive RErr where
  | client : String → RErr
  | buildRules : String → RErr
  | cannotReadNsgId : String → String → RErr
  | waitFailed : String → String → RErr
  | readNsg : String → String → RErr
  | parse : String → RErr
  | cannotReadAccountId : String → String → RErr
  | readAccount : String → String → RErr
  | deleteAccount : String → String → RErr
deriving DecidableEq, Repr

/-- The result of a handler run: the updated resource data, the returned
error (`none` is Go `nil`), and the event trace.  The whole result is wrapped
in `Option` by each handler, `none` embedding a Go runtime panic. -/
abbrev HandlerResult := ResData × Option RErr × List Event

/-! ## Network security group handlers -/

/-- Source: `var networkSecurityGroupResourceName`. -/
def networkSecurityGroupResourceName : String := "azurerm_network_security_group"

/-- Outcome of the one `Get` call the read handler makes. -/
structure NsgReadScript where
  get : SecurityGroup × Option String
deriving DecidableEq, Repr

/-- Outcomes of the client calls the create handler makes, consumed in call
order: the `CreateOrUpdate` error (received from the SDK's error channel),
the read-back `Get`, the `Get` of each poll iteration, and the calls of the
final nested `Read`. -/
structure NsgCreateScript where
  createOrUpdateErr : Option String
  get : SecurityGroup × Option String
  refreshOutcomes : List (SecurityGroup × Option String)
  readScript : NsgReadScript
deriving DecidableEq, Repr

/-- Outcome of the one `Delete` call the delete handler makes (the handler
only looks at the error channel). -/
structure NsgDeleteScript where
  deleteErr : Option String
deriving DecidableEq, Repr

/-- The fields of the `resource.StateChangeConf` literal built by the create
handler. -/
structure StateChangeConf where
  pending : List String
  target : List String
  timeoutSeconds : Nat
  minTimeoutSeconds : Nat
deriving DecidableEq, Repr

/-- The `stateConf` literal of `resourceArmNetworkSecurityGroupCreate`:
pending `"Updating"`, `"Creating"`; target `"Succeeded"`; timeout 30 minutes;
minimum poll interval 15 seconds. -/
def nsgStateConf : StateChangeConf :=
  { pending := ["Updating", "Creating"]
    target := ["Succeeded"]
    timeoutSeconds := 30 * 60
    minTimeoutSeconds := 15 }

/-- `networkSecurityGroupStateRefreshFunc`: one poll step issues a `Get`; an
error produces a refresh error, otherwise the provisioning state is read via
the dereference chain `*res.SecurityGroupPropertiesFormat.ProvisioningState`,
which panics (embedded as `none`) when either pointer is nil. -/
def networkSecurityGroupStateRefreshFunc (resourceGroupName sgName : String)
    (outcome : SecurityGroup × Option String) : Option (Except String String) :=
  match outcome with
  | (_, some e) =>
    some (.error ("Error issuing read request in networkSecurityGroupStateRefreshFunc for NSG "
      ++ sgName ++ " (RG: " ++ resourceGroupName ++ "): " ++ e))
  | (res, none) => do
    let props ← res.properties
    let st ← props.provisioningState
    some (.ok st)

/-- Modelled from the spec: `resource.StateChangeConf.WaitForState` belongs to
the hosting framework, not to this repository; the spec describes the pattern
as "poll a status field until it reaches a terminal value".  The poll
repeatedly invokes the refresh function: a refresh error aborts the wait, a
state in `target` finishes it successfully, a state in `pending` continues
with the next refresh outcome, and any other state aborts with an
unexpected-state error; exceeding the 30-minute timeout is embedded as
exhausting the finite list of scripted refresh outcomes.  Each refresh
performs one `Get` call, recorded in the returned trace; a refresh panic
propagates as `none`. -/
def waitForState (conf : StateChangeConf) (resourceGroupName sgName : String) :
    List (SecurityGroup × Option String) → Option (Except String String × List Event)
  | [] => some (.error "timeout while waiting for state to become target", [])
  | outcome :: rest =>
    match networkSecurityGroupStateRefreshFunc resourceGroupName sgName outcome with
    | none => none
    | some (.error e) => some (.error e, [.nsgGet resourceGroupName sgName])
    | some (.ok st) =>
      if conf.target.contains st then
        some (.ok st, [.nsgGet resourceGroupName sgName])
      else if conf.pending.contains st then
        match waitForState conf resourceGroupName sgName rest with
        | none => none
        | some (out, evs) => some (out, .nsgGet resourceGroupName sgName :: evs)
      else
        some (.error ("unexpected state " ++ st), [.nsgGet resourceGroupName sgName])

/-- `resourceArmNetworkSecurityGroupRead`: parses the stored ID, issues one
`Get`, clears the ID and returns nil on a not-found error, propagates any
other error, and otherwise writes the response fields back into state
(`d.Set` with a nil `*string` writes the zero value; `*resp.Location`
dereferences and panics on nil; `security_rule` is only written when the
properties pointer is non-nil). -/
def resourceArmNetworkSecurityGroupRead (script : NsgReadScript) (d : ResData) :
    Option HandlerResult :=
  match parseAzureResourceID d.id with
  | .error e => some (d, some (.parse e), [])
  | .ok pid =>
    let resGroup := pid.resourceGroup
    let name := pid.pathGet "networkSecurityGroups"
    let (resp, err) := script.get
    let evs := [Event.nsgGet resGroup name]
    match err with
    | some e =>
      if responseWasNotFound resp.response then
        some ({ d with id := .empty }, none, evs ++ [.setId .empty])
      else
        some (d, some (.readNsg name e), evs)
    | none => do
      let loc ← resp.location
      let base := { d with
        name := resp.name.getD ""
        resourceGroupName := resGroup
        location := azureRMNormalizeLocation loc }
      let d2 ← match resp.properties with
        | none => some base
        | some props => do
          let flat ← flattenNetworkSecurityRules props.securityRules
          some { base with securityRule := flat }
      some ({ d2 with tags := flattenTags resp.tags }, none, evs)

/-- `resourceArmNetworkSecurityGroupCreate` (also registered as the update
handler): expands the rule list, acquires the named lock (released when the
handler returns, because of `defer`), issues `CreateOrUpdate`, reads the
group back, waits for the provisioning state to reach the target, sets the
ID, and delegates to the read handler. -/
def resourceArmNetworkSecurityGroupCreate (script : NsgCreateScript) (d : ResData) :
    Option HandlerResult :=
  let name := d.name
  let location := d.location
  let resGroup := d.resourceGroupName
  let tags := d.tags
  match expandAzureRmSecurityRules d.securityRule with
  | none => none
  | some (sgRules, sgErr) =>
    match sgErr with
    | some e => some (d, some (.buildRules e), [])
    | none =>
      let lockEvs := [Event.lockByName name networkSecurityGroupResourceName]
      let unlockEvs := [Event.unlockByName name networkSecurityGroupResourceName]
      let sg : SecurityGroup :=
        { name := some name
          location := some location
          properties := some { securityRules := some sgRules }
          tags := some (expandTags tags) }
      let callEvs := lockEvs ++ [.nsgCreateOrUpdate resGroup name sg]
      match script.createOrUpdateErr with
      | some e => some (d, some (.client e), callEvs ++ unlockEvs)
      | none =>
        let (read, err) := script.get
        let getEvs := callEvs ++ [.nsgGet resGroup name]
        match err with
        | some e => some (d, some (.client e), getEvs ++ unlockEvs)
        | none =>
          match read.id with
          | none => some (d, some (.cannotReadNsgId name resGroup), getEvs ++ unlockEvs)
          | some readId =>
            match waitForState nsgStateConf resGroup name script.refreshOutcomes with
            | none => none
            | some (.error e, wEvs) =>
              some (d, some (.waitFailed name e), getEvs ++ wEvs ++ unlockEvs)
            | some (.ok _, wEvs) =>
              match resourceArmNetworkSecurityGroupRead script.readScript
                  { d with id := readId } with
              | none => none
              | some (d2, rerr, rEvs) =>
                some (d2, rerr, getEvs ++ wEvs ++ [.setId readId] ++ rEvs ++ unlockEvs)

/-- `resourceArmNetworkSecurityGroupDelete`: parses the stored ID, issues one
`Delete`, and returns the client error unchanged — it acquires no lock and
has no not-found special case. -/
def resourceArmNetworkSecurityGroupDelete (script : NsgDeleteScript) (d : ResData) :
    Option HandlerResult :=
  match parseAzureResourceID d.id with
  | .error e => some (d, some (.parse e), [])
  | .ok pid =>
    let resGroup := pid.resourceGroup
    let name := pid.pathGet "networkSecurityGroups"
    some (d, script.deleteErr.map RErr.client, [.nsgDeleteCall resGroup name])

/-- The handler registration of the `azurerm_network_security_group`
resource (the `schema.Resource` literal; the importer is the framework's
passthrough and is not modelled). -/
structure NsgResource where
  create : NsgCreateScript → ResData → Option HandlerResult
  read : NsgReadScript → ResData → Option HandlerResult
  update : NsgCreateScript → ResData → Option HandlerResult
  delete : NsgDeleteScript → ResData → Option HandlerResult

/-- `resourceArmNetworkSecurityGroup`: Create and Update are registered as
the same function. -/
def resourceArmNetworkSecurityGroup : NsgResource :=
  { create := resourceArmNetworkSecurityGroupCreate
    read := resourceArmNetworkSecurityGroupRead
    update := resourceArmNetworkSecurityGroupCreate
    delete := resourceArmNetworkSecurityGroupDelete }

/-! ## Automation account handlers -/

/-- Outcome of the one `Get` call the automation read handler makes. -/
structure AutoReadScript where
  get : AutomationAccount × Option String
deriving DecidableEq, Repr

/-- Outcomes of the client calls the automation create/update handler makes,
in call order: `CreateOrUpdate` (only its error is inspected), the read-back
`Get`, and the calls of the final nested `Read`. -/
structure AutoCreateScript where
  createOrUpdateErr : Option String
  get : AutomationAccount × Option String
  readScript : AutoReadScript
deriving DecidableEq, Repr

/-- Outcome of the one `Delete` call the automation delete handler makes:
the `autorest.Response` and the error. -/
structure AutoDeleteScript where
  delete : HttpResponse × Option String
deriving DecidableEq, Repr

/-- `expandSku`: `inputs[0]` panics (embedded as `none`) on an empty `sku`
list and `input["name"].(string)` panics on a missing `name` key. -/
def expandSku (inputs : List SkuAttrs) : Option Sku :=
  match inputs with
  | [] => none
  | input :: _ => do
    let n ← input.name
    some { name := n }

/-- `flattenAndSetSku`: builds the one-element `sku` attribute list written
back into state; `sku.Name` on a nil `*automation.Sku` panics (embedded as
`none`). -/
def flattenAndSetSku (sku : Option Sku) : Option (List SkuAttrs) := do
  let s ← sku
  some [{ name := some s.name }]

/-- `resourceArmAutomationAccountRead`: parses the stored ID, issues one
`Get`, clears the ID and returns nil on a not-found error, propagates any
other error, and otherwise writes name, location, resource group, sku and
tags back into state. -/
def resourceArmAutomationAccountRead (script : AutoReadScript) (d : ResData) :
    Option HandlerResult :=
  match parseAzureResourceID d.id with
  | .error e => some (d, some (.parse e), [])
  | .ok pid =>
    let resGroup := pid.resourceGroup
    let name := pid.pathGet "automationAccounts"
    let (resp, err) := script.get
    let evs := [Event.accountGet resGroup name]
    match err with
    | some e =>
      if responseWasNotFound resp.response then
        some ({ d with id := .empty }, none, evs ++ [.setId .empty])
      else
        some (d, some (.readAccount name e), evs)
    | none => do
      let loc ← resp.location
      let skuList ← flattenAndSetSku resp.sku
      some ({ d with
        name := resp.name.getD ""
        location := azureRMNormalizeLocation loc
        resourceGroupName := resGroup
        sku := skuList
        tags := flattenTags resp.tags }, none, evs)

/-- `resourceArmAutomationAccountCreateUpdate` (registered as both the create
and the update handler): expands the sku, builds the
`AccountCreateOrUpdateParameters` from the configuration, issues one
`CreateOrUpdate`, reads the account back, sets the ID from the read-back
account, and delegates to the read handler. -/
def resourceArmAutomationAccountCreateUpdate (script : AutoCreateScript) (d : ResData) :
    Option HandlerResult :=
  let name := d.name
  let location := d.location
  let resGroup := d.resourceGroupName
  let tags := d.tags
  match expandSku d.sku with
  | none => none
  | some sku =>
    let parameters : AccountCreateOrUpdateParameters :=
      { properties := some { sku := some sku }
        location := some location
        tags := some (expandTags tags) }
    let callEvs := [Event.accountCreateOrUpdate resGroup name parameters]
    match script.createOrUpdateErr with
    | some e => some (d, some (.client e), callEvs)
    | none =>
      let (read, err) := script.get
      let getEvs := callEvs ++ [.accountGet resGroup name]
      match err with
      | some e => some (d, some (.client e), getEvs)
      | none =>
        match read.id with
        | none => some (d, some (.cannotReadAccountId name resGroup), getEvs)
        | some readId =>
          match resourceArmAutomationAccountRead script.readScript
              { d with id := readId } with
          | none => none
          | some (d2, rerr, rEvs) =>
            some (d2, rerr, getEvs ++ [.setId readId] ++ rEvs)

/-- `resourceArmAutomationAccountDelete`: parses the stored ID, issues one
`Delete`, returns nil when the error is a not-found response, and wraps any
other error. -/
def resourceArmAutomationAccountDelete (script : AutoDeleteScript) (d : ResData) :
    Option HandlerResult :=
  match parseAzureResourceID d.id with
  | .error e => some (d, some (.parse e), [])
  | .ok pid =>
    let resGroup := pid.resourceGroup
    let name := pid.pathGet "automationAccounts"
    let (resp, err) := script.delete
    let evs := [Event.accountDeleteCall resGroup name]
    match err with
    | some e =>
      if responseWasNotFound resp then
        some (d, none, evs)
      else
        some (d, some (.deleteAccount name e), evs)
    | none => some (d, none, evs)

/-- The handler registration of the `azurerm_automation_account` resource
(the `schema.Resource` literal; the importer is the framework's passthrough
and is not modelled). -/
structure AutoResource where
  create : AutoCreateScript → ResData → Option HandlerResult
  read : AutoReadScript → ResData → Option HandlerResult
  update : AutoCreateScript → ResData → Option HandlerResult
  delete : AutoDeleteScript → ResData → Option HandlerResult

/-- `resourceArmAutomationAccount`: Create and Update are registered as the
same function. -/
def resourceArmAutomationAccount : AutoResource :=
  { create := resourceArmAutomationAccountCreateUpdate
    read := resourceArmAutomationAccountRead
    update := resourceArmAutomationAccountCreateUpdate
    delete := resourceArmAutomationAccountDelete }

/-! ## Schema attributes with case-insensitive validation and diff
suppression -/

/-- SDK constant `network.SecurityRuleAccessAllow`. -/
def securityRuleAccessAllow : String := "Allow"

/-- SDK constant `network.SecurityRuleAccessDeny`. -/
def securityRuleAccessDeny : String := "Deny"

/-- SDK constant `network.SecurityRuleDirectionInbound`. -/
def securityRuleDirectionInbound : String := "Inbound"

/-- SDK constant `network.SecurityRuleDirectionOutbound`. -/
def securityRuleDirectionOutbound : String := "Outbound"

/-- SDK constant `automation.Basic` (a `SkuNameEnum` value). -/
def automationSkuBasic : String := "Basic"

/-- Modelled from the spec: `ignoreCaseDiffSuppressFunc` is a helper of this
provider that is not under `src/`; it suppresses the diff exactly when the
old and the new value are equal under case folding (`strings.EqualFold`,
embedded as equality of the lower-casings).  The first argument is the
attribute key and the trailing `*schema.ResourceData` argument is unused. -/
def ignoreCaseDiffSuppressFunc (_k old new : String) : Bool :=
  goToLower old == goToLower new

/-- Modelled from the spec: `validation.StringInSlice(valid, ignoreCase)`
belongs to the hosting framework; it accepts a value exactly when the value
equals one of the allowed strings, case-insensitively when `ignoreCase` is
set. -/
def stringInSlice (valid : List String) (ignoreCase : Bool) (value : String) : Bool :=
  valid.any (fun s => s == value || (ignoreCase && goToLower s == goToLower value))

/-- A string attribute's schema entry: validation plus optional diff
suppression, as attached in the `schema.Schema` literals. -/
structure StringAttrSchema where
  validateFunc : String → Bool
  diffSuppressFunc : String → String → String → Bool

/-- The `access` attribute of a security rule: `StringInSlice([Allow, Deny],
true)` with `ignoreCaseDiffSuppressFunc`. -/
def nsgAccessSchema : StringAttrSchema :=
  { validateFunc := stringInSlice [securityRuleAccessAllow, securityRuleAccessDeny] true
    diffSuppressFunc := ignoreCaseDiffSuppressFunc }

/-- The `direction` attribute of a security rule: `StringInSlice([Inbound,
Outbound], true)` with `ignoreCaseDiffSuppressFunc`. -/
def nsgDirectionSchema : StringAttrSchema :=
  { validateFunc := stringInSlice [securityRuleDirectionInbound, securityRuleDirectionOutbound] true
    diffSuppressFunc := ignoreCaseDiffSuppressFunc }

/-- The `sku.name` attribute of an automation account: `StringInSlice([Basic],
true)` with `ignoreCaseDiffSuppressFunc` (default `"Basic"`). -/
def automationSkuNameSchema : StringAttrSchema :=
  { validateFunc := stringInSlice [automationSkuBasic] true
    diffSuppressFunc := ignoreCaseDiffSuppressFunc }

/-! ## Helper lemmas about the handlers -/

/-- Whether a handler error is the rule-building error of the create
handler. -/
def isBuildRulesErr : Option RErr → Bool
  | some (.buildRules _) => true
  | _ => false

/-- Whether a handler result carries the rule-building error. -/
def resultHasBuildRulesErr : Option HandlerResult → Bool
  | some (_, e, _) => isBuildRulesErr e
  | none => false

theorem expand_err_none (cfgs : List SecurityRuleAttrs) (rules : List SecurityRule)
    (e : Option String) (h : expandAzureRmSecurityRules cfgs = some (rules, e)) :
    e = none := by
  unfold expandAzureRmSecurityRules at h
  cases hr : expandRules cfgs with
  | none => rw [hr] at h; simp at h
  | some rs => rw [hr] at h; simp at h; exact h.2.symm

theorem nsgRead_no_buildRules (script : NsgReadScript) (d : ResData) :
    resultHasBuildRulesErr (resourceArmNetworkSecurityGroupRead script d) = false := by
  unfold resourceArmNetworkSecurityGroupRead
  rcases script with ⟨resp, err⟩
  cases parseAzureResourceID d.id with
  | error e => rfl
  | ok pid =>
    cases err with
    | some e =>
      by_cases hnf : responseWasNotFound resp.response <;>
        simp [hnf, resultHasBuildRulesErr, isBuildRulesErr]
    | none =>
      cases hloc : resp.location with
      | none => simp [hloc, resultHasBuildRulesErr]
      | some loc =>
        cases hp : resp.properties with
        | none => simp [hloc, hp, resultHasBuildRulesErr, isBuildRulesErr]
        | some props =>
          cases hf : flattenNetworkSecurityRules props.securityRules with
          | none => simp [hloc, hp, hf, resultHasBuildRulesErr]
          | some flat => simp [hloc, hp, hf, resultHasBuildRulesErr, isBuildRulesErr]

/-- C8: `expandAzureRmSecurityRules` returns a nil error for every input rule
list on which it returns at all, so the create handler's branch reporting
"Error Building list of Network Security Group Rules" is unreachable: no run
of the create handler ever produces that error. -/
theorem c8_expand_never_errors :
    (∀ cfgs : List SecurityRuleAttrs,
      (expandAzureRmSecurityRules cfgs).all (fun p => p.2.isNone) = true) ∧
    (∀ (script : NsgCreateScript) (d : ResData),
      resultHasBuildRulesErr (resourceArmNetworkSecurityGroupCreate script d) = false) := by
  constructor
  · intro cfgs
    unfold expandAzureRmSecurityRules
    cases hr : expandRules cfgs <;> simp [hr, Option.all]
  · intro script d
    unfold resourceArmNetworkSecurityGroupCreate
    cases hx : expandAzureRmSecurityRules d.securityRule with
    | none => rfl
    | some p =>
      obtain ⟨rules, err⟩ := p
      have herr := expand_err_none d.securityRule rules err hx
      subst herr
      cases hco : script.createOrUpdateErr with
      | some e => simp [resultHasBuildRulesErr, isBuildRulesErr]
      | none =>
        obtain ⟨read, gerr⟩ := script.get
        cases gerr with
        | some e => simp [resultHasBuildRulesErr, isBuildRulesErr]
        | none =>
          cases hid : read.id with
          | none => simp [hid, resultHasBuildRulesErr, isBuildRulesErr]
          | some readId =>
            cases hw : waitForState nsgStateConf d.resourceGroupName d.name
                script.refreshOutcomes with
            | none => simp [hid, hw, resultHasBuildRulesErr]
            | some w =>
              obtain ⟨res, wEvs⟩ := w
              cases res with
              | error e => simp [hid, hw, resultHasBuildRulesErr, isBuildRulesErr]
              | ok st =>
                cases hrd : resourceArmNetworkSecurityGroupRead script.readScript
                    { d with id := readId } with
                | none => simp [hid, hw, hrd, resultHasBuildRulesErr]
                | some r =>
                  obtain ⟨d2, rerr, rEvs⟩ := r
                  have hnb := nsgRead_no_buildRules script.readScript { d with id := readId }
                  rw [hrd] at hnb
                  simp [resultHasBuildRulesErr] at hnb
                  simp [hid, hw, hrd, resultHasBuildRulesErr, hnb]

/-- C10: for both the network security group and the automation account
resources, the registered Update handler is the very same function as the
registered Create handler, so every update run performs exactly the same
calls and state writes as the corresponding create run. -/
theorem c10_update_is_create :
    resourceArmNetworkSecurityGroup.update = resourceArmNetworkSecurityGroup.create ∧
    resourceArmAutomationAccount.update = resourceArmAutomationAccount.create ∧
    (∀ (script : NsgCreateScript) (d : ResData),
      resourceArmNetworkSecurityGroup.update script d =
        resourceArmNetworkSecurityGroup.create script d) ∧
    (∀ (script : AutoCreateScript) (d : ResData),
      resourceArmAutomationAccount.update script d =
        resourceArmAutomationAccount.create script d) :=
  ⟨rfl, rfl, fun _ _ => rfl, fun _ _ => rfl⟩

/-- C3: for both the network security group and the automation account read
handlers, when the stored ID parses and the client `Get` call fails, a
not-found response makes the handler clear the resource ID and return nil,
and any other `Get` error makes it return a non-nil error with the resource
ID unchanged. -/
theorem c3_read_not_found_reconciliation :
    (∀ (script : NsgReadScript) (d : ResData) (pid : ParsedId)
        (d2 : ResData) (e : Option RErr) (evs : List Event) (ge : String),
      parseAzureResourceID d.id = Except.ok pid →
      resourceArmNetworkSecurityGroupRead script d = some (d2, e, evs) →
      script.get.2 = some ge →
      (responseWasNotFound script.get.1.response = true →
        d2.id = IdStr.empty ∧ e = none) ∧
      (responseWasNotFound script.get.1.response = false →
        e ≠ none ∧ d2.id = d.id)) ∧
    (∀ (script : AutoReadScript) (d : ResData) (pid : ParsedId)
        (d2 : ResData) (e : Option RErr) (evs : List Event) (ge : String),
      parseAzureResourceID d.id = Except.ok pid →
      resourceArmAutomationAccountRead script d = some (d2, e, evs) →
      script.get.2 = some ge →
      (responseWasNotFound script.get.1.response = true →
        d2.id = IdStr.empty ∧ e = none) ∧
      (responseWasNotFound script.get.1.response = false →
        e ≠ none ∧ d2.id = d.id)) := by
  constructor
  · intro script d pid d2 e evs ge hparse hrun hget
    rcases script with ⟨resp, gerr⟩
    simp only at hget
    subst hget
    unfold resourceArmNetworkSecurityGroupRead at hrun
    rw [hparse] at hrun
    by_cases hnf : responseWasNotFound resp.response
    · simp only [hnf, if_true, if_pos] at hrun
      simp only [Option.some.injEq, Prod.mk.injEq] at hrun
      constructor
      · intro _
        exact ⟨by rw [← hrun.1], hrun.2.1.symm⟩
      · intro hcontra
        rw [hnf] at hcontra
        exact absurd hcontra (by simp)
    · rw [Bool.not_eq_true] at hnf
      simp only [hnf, Bool.false_eq_true, if_false] at hrun
      simp only [Option.some.injEq, Prod.mk.injEq] at hrun
      constructor
      · intro hcontra
        rw [hnf] at hcontra
        exact absurd hcontra (by simp)
      · intro _
        refine ⟨?_, by rw [← hrun.1]⟩
        rw [← hrun.2.1]
        simp
  · intro script d pid d2 e evs ge hparse hrun hget
    rcases script with ⟨resp, gerr⟩
    simp only at hget
    subst hget
    unfold resourceArmAutomationAccountRead at hrun
    rw [hparse] at hrun
    by_cases hnf : responseWasNotFound resp.response
    · simp only [hnf, if_true, if_pos] at hrun
      simp only [Option.some.injEq, Prod.mk.injEq] at hrun
      constructor
      · intro _
        exact ⟨by rw [← hrun.1], hrun.2.1.symm⟩
      · intro hcontra
        rw [hnf] at hcontra
        exact absurd hcontra (by simp)
    · rw [Bool.not_eq_true] at hnf
      simp only [hnf, Bool.false_eq_true, if_false] at hrun
      simp only [Option.some.injEq, Prod.mk.injEq] at hrun
      constructor
      · intro hcontra
        rw [hnf] at hcontra
        exact absurd hcontra (by simp)
      · intro _
        refine ⟨?_, by rw [← hrun.1]⟩
        rw [← hrun.2.1]
        simp

/-- C9: deleting an already-absent automation account succeeds — when the
stored ID parses, `resourceArmAutomationAccountDelete` returns nil if the
client `Delete` errored with a not-found response (and also if it returned no
error), and a non-nil error for every other `Delete` error; by contrast the
network security group delete handler returns the client error unchanged,
with no not-found special case. -/
theorem c9_delete_not_found :
    (∀ (script : AutoDeleteScript) (d : ResData) (pid : ParsedId)
        (d2 : ResData) (e : Option RErr) (evs : List Event),
      parseAzureResourceID d.id = Except.ok pid →
      resourceArmAutomationAccountDelete script d = some (d2, e, evs) →
      (script.delete.2 = none → e = none) ∧
      (∀ de, script.delete.2 = some de →
        (responseWasNotFound script.delete.1 = true → e = none) ∧
        (responseWasNotFound script.delete.1 = false → e ≠ none))) ∧
    (∀ (script : NsgDeleteScript) (d : ResData) (pid : ParsedId)
        (d2 : ResData) (e : Option RErr) (evs : List Event),
      parseAzureResourceID d.id = Except.ok pid →
      resourceArmNetworkSecurityGroupDelete script d = some (d2, e, evs) →
      e = script.deleteErr.map RErr.client) := by
  constructor
  · intro script d pid d2 e evs hparse hrun
    rcases script with ⟨resp, derr⟩
    unfold resourceArmAutomationAccountDelete at hrun
    rw [hparse] at hrun
    constructor
    · intro hde
      simp only at hde
      subst hde
      simp only [Option.some.injEq, Prod.mk.injEq] at hrun
      exact hrun.2.1.symm
    · intro de hde
      simp only at hde
      subst hde
      by_cases hnf : responseWasNotFound resp
      · simp only [hnf, if_true, if_pos, Option.some.injEq, Prod.mk.injEq] at hrun
        constructor
        · intro _
          exact hrun.2.1.symm
        · intro hcontra
          rw [hnf] at hcontra
          exact absurd hcontra (by simp)
      · rw [Bool.not_eq_true] at hnf
        simp only [hnf, Bool.false_eq_true, if_false, Option.some.injEq,
          Prod.mk.injEq] at hrun
        constructor
        · intro hcontra
          rw [hnf] at hcontra
          exact absurd hcontra (by simp)
        · intro _
          rw [← hrun.2.1]
          simp
  · intro script d pid d2 e evs hparse hrun
    unfold resourceArmNetworkSecurityGroupDelete at hrun
    rw [hparse] at hrun
    simp only [Option.some.injEq, Prod.mk.injEq] at hrun
    exact hrun.2.1.symm

theorem waitForState_ok_mem_target (conf : StateChangeConf) (rg n : String) :
    ∀ (l : List (SecurityGroup × Option String)) (st : String) (evs : List Event),
      waitForState conf rg n l = some (.ok st, evs) →
      conf.target.contains st = true := by
  intro l
  induction l with
  | nil => intro st evs h; simp [waitForState] at h
  | cons outcome rest ih =>
    intro st evs h
    unfold waitForState at h
    split at h
    · exact absurd h (by simp)
    · simp at h
    · rename_i st2 heq
      split at h
      · rename_i ht
        simp only [Option.some.injEq, Prod.mk.injEq, Except.ok.injEq] at h
        rw [← h.1]
        exact ht
      · rename_i ht
        split at h
        · split at h
          · exact absurd h (by simp)
          · rename_i out wEvs hw2
            simp only [Option.some.injEq, Prod.mk.injEq] at h
            rw [h.1] at hw2
            exact ih st wEvs hw2
        · simp at h

theorem waitForState_no_setId (conf : StateChangeConf) (rg n : String) :
    ∀ (l : List (SecurityGroup × Option String)) (r : Except String String)
      (evs : List Event),
      waitForState conf rg n l = some (r, evs) → hasSetId evs = false := by
  intro l
  induction l with
  | nil =>
    intro r evs h
    simp only [waitForState, Option.some.injEq, Prod.mk.injEq] at h
    rw [← h.2]
    rfl
  | cons outcome rest ih =>
    intro r evs h
    unfold waitForState at h
    split at h
    · exact absurd h (by simp)
    · simp only [Option.some.injEq, Prod.mk.injEq] at h
      rw [← h.2]
      rfl
    · split at h
      · simp only [Option.some.injEq, Prod.mk.injEq] at h
        rw [← h.2]
        rfl
      · split at h
        · split at h
          · exact absurd h (by simp)
          · rename_i out wEvs hw2
            simp only [Option.some.injEq, Prod.mk.injEq] at h
            rw [← h.2]
            have hr := ih out wEvs hw2
            simp [hasSetId] at hr ⊢
            exact hr
        · simp only [Option.some.injEq, Prod.mk.injEq] at h
          rw [← h.2]
          rfl

theorem hasSetId_append (a b : List Event) :
    hasSetId (a ++ b) = (hasSetId a || hasSetId b) :=
  List.any_append

/-- C4: the create handler's poll treats "Updating" and "Creating" as
pending states with target "Succeeded" and a 30-minute timeout; on every run
that returns, if the run succeeded or set the resource ID then the wait ended
with the terminal state "Succeeded", and if the wait failed (including by
exhausting the timeout) the run returned an error, left the resource ID
unchanged and performed no `d.SetId`. -/
theorem c4_create_provisioning_poll :
    nsgStateConf.pending = ["Updating", "Creating"] ∧
    nsgStateConf.target = ["Succeeded"] ∧
    nsgStateConf.timeoutSeconds = 30 * 60 ∧
    (∀ (script : NsgCreateScript) (d : ResData) (d2 : ResData) (e : Option RErr)
        (evs : List Event),
      resourceArmNetworkSecurityGroupCreate script d = some (d2, e, evs) →
      ((e = none ∨ hasSetId evs = true) →
        ∃ wEvs, waitForState nsgStateConf d.resourceGroupName d.name
          script.refreshOutcomes = some (.ok "Succeeded", wEvs)) ∧
      (∀ werr wEvs,
        waitForState nsgStateConf d.resourceGroupName d.name script.refreshOutcomes
          = some (.error werr, wEvs) →
        e ≠ none ∧ d2.id = d.id ∧ hasSetId evs = false)) := by
  refine ⟨rfl, rfl, rfl, ?_⟩
  intro script d d2 e evs hrun
  unfold resourceArmNetworkSecurityGroupCreate at hrun
  repeat' (first | split at hrun | simp only [] at hrun)
  case h_1 => exact absurd hrun (by simp)
  case h_2.h_1 =>
    simp only [Option.some.injEq, Prod.mk.injEq] at hrun
    obtain ⟨hd2, he, hevs⟩ := hrun
    constructor
    · intro hor
      rcases hor with h0 | h0
      · rw [← he] at h0; exact absurd h0 (by simp)
      · rw [← hevs] at h0; simp [hasSetId] at h0
    · intro werr wEvs hw
      exact ⟨by rw [← he]; simp, by rw [← hd2], by rw [← hevs]; rfl⟩
  case h_2.h_2.h_1 =>
    simp only [Option.some.injEq, Prod.mk.injEq] at hrun
    obtain ⟨hd2, he, hevs⟩ := hrun
    constructor
    · intro hor
      rcases hor with h0 | h0
      · rw [← he] at h0; exact absurd h0 (by simp)
      · rw [← hevs] at h0; simp [hasSetId, hasSetId_append] at h0
    · intro werr wEvs hw
      exact ⟨by rw [← he]; simp, by rw [← hd2],
        by rw [← hevs]; simp [hasSetId, hasSetId_append]⟩
  case h_2.h_2.h_2.h_1 =>
    simp only [Option.some.injEq, Prod.mk.injEq] at hrun
    obtain ⟨hd2, he, hevs⟩ := hrun
    constructor
    · intro hor
      rcases hor with h0 | h0
      · rw [← he] at h0; exact absurd h0 (by simp)
      · rw [← hevs] at h0; simp [hasSetId, hasSetId_append] at h0
    · intro werr wEvs hw
      exact ⟨by rw [← he]; simp, by rw [← hd2],
        by rw [← hevs]; simp [hasSetId, hasSetId_append]⟩
  case h_2.h_2.h_2.h_2.h_1 =>
    simp only [Option.some.injEq, Prod.mk.injEq] at hrun
    obtain ⟨hd2, he, hevs⟩ := hrun
    constructor
    · intro hor
      rcases hor with h0 | h0
      · rw [← he] at h0; exact absurd h0 (by simp)
      · rw [← hevs] at h0; simp [hasSetId, hasSetId_append] at h0
    · intro werr wEvs hw
      exact ⟨by rw [← he]; simp, by rw [← hd2],
        by rw [← hevs]; simp [hasSetId, hasSetId_append]⟩
  case h_2.h_2.h_2.h_2.h_2.h_1.h_1 => exact absurd hrun (by simp)
  case h_2.h_2.h_2.h_2.h_2.h_1.h_2 =>
    rename_i werr2 wEvs2 hww
    have hws := waitForState_no_setId nsgStateConf d.resourceGroupName d.name
      script.refreshOutcomes (Except.error werr2) wEvs2 hww
    simp only [hasSetId] at hws
    simp only [Option.some.injEq, Prod.mk.injEq] at hrun
    obtain ⟨hd2, he, hevs⟩ := hrun
    constructor
    · intro hor
      rcases hor with h0 | h0
      · rw [← he] at h0; exact absurd h0 (by simp)
      · rw [← hevs] at h0; simp [hasSetId, hasSetId_append, hws] at h0
    · intro werr wEvs hw
      exact ⟨by rw [← he]; simp, by rw [← hd2],
        by rw [← hevs]; simp [hasSetId, hasSetId_append, hws]⟩
  case h_2.h_2.h_2.h_2.h_2.h_1.h_3 => exact absurd hrun (by simp)
  case h_2.h_2.h_2.h_2.h_2.h_2.h_1 => exact absurd hrun (by simp)
  case h_2.h_2.h_2.h_2.h_2.h_2.h_2 =>
    rename_i werr2 wEvs2 hww
    have hws := waitForState_no_setId nsgStateConf d.resourceGroupName d.name
      script.refreshOutcomes (Except.error werr2) wEvs2 hww
    simp only [hasSetId] at hws
    simp only [Option.some.injEq, Prod.mk.injEq] at hrun
    obtain ⟨hd2, he, hevs⟩ := hrun
    constructor
    · intro hor
      rcases hor with h0 | h0
      · rw [← he] at h0; exact absurd h0 (by simp)
      · rw [← hevs] at h0; simp [hasSetId, hasSetId_append, hws] at h0
    · intro werr wEvs hw
      exact ⟨by rw [← he]; simp, by rw [← hd2],
        by rw [← hevs]; simp [hasSetId, hasSetId_append, hws]⟩
  case h_2.h_2.h_2.h_2.h_2.h_2.h_3 =>
    rename_i st2 wEvs2 hww
    have hst := waitForState_ok_mem_target nsgStateConf d.resourceGroupName d.name
      script.refreshOutcomes st2 wEvs2 hww
    simp only [nsgStateConf, List.contains_cons, List.contains_nil,
      Bool.or_false, beq_iff_eq] at hst
    rw [hst] at hww
    constructor
    · intro _
      exact ⟨wEvs2, hww⟩
    · intro werr wEvs hw
      rw [hww] at hw
      exact absurd hw (by simp)

/-- A concrete resource-data value for the network security group named
"nsg1" in resource group "rg", with a parseable stored ID. -/
def c5Data : ResData :=
  { id := .parseable { resourceGroup := "rg", path := [("networkSecurityGroups", "nsg1")] }
    name := "nsg1"
    location := "westus"
    resourceGroupName := "rg" }

/-- C5, counterexample.  The claim says every mutating operation on a network
security group — including the delete handler — acquires the named lock
before issuing its API call; but a delete run issues its `Delete` API call
with a trace containing no lock acquire at all. -/
theorem c5_counterexample_delete_without_lock :
    resourceArmNetworkSecurityGroupDelete { deleteErr := none } c5Data =
      some (c5Data, none, [Event.nsgDeleteCall "rg" "nsg1"]) ∧
    hasApiCall [Event.nsgDeleteCall "rg" "nsg1"] = true ∧
    hasLockEvent [Event.nsgDeleteCall "rg" "nsg1"] = false :=
  ⟨rfl, rfl, rfl⟩

/-- C5, amended.  Only the create/update handler of the network security
group acquires the named lock, keyed by the group's name and the resource
type string "azurerm_network_security_group": on every create/update run
that issues an API call, the lock acquire is the first event and the lock
release (via `defer`) is the last, so all of the run's API calls happen
under the lock; the delete handler, by contrast, never touches the lock, so
the mutual-exclusion guarantee covers only concurrent create/update runs. -/
theorem c5_named_lock_amended :
    networkSecurityGroupResourceName = "azurerm_network_security_group" ∧
    (∀ (script : NsgCreateScript) (d : ResData) (d2 : ResData) (e : Option RErr)
        (evs : List Event),
      resourceArmNetworkSecurityGroupCreate script d = some (d2, e, evs) →
      hasApiCall evs = true →
      evs.head? = some (.lockByName d.name networkSecurityGroupResourceName) ∧
      evs.getLast? = some (.unlockByName d.name networkSecurityGroupResourceName)) ∧
    (∀ (script : NsgDeleteScript) (d : ResData) (d2 : ResData) (e : Option RErr)
        (evs : List Event),
      resourceArmNetworkSecurityGroupDelete script d = some (d2, e, evs) →
      hasLockEvent evs = false) := by
  refine ⟨rfl, ?_, ?_⟩
  · intro script d d2 e evs hrun hapi
    unfold resourceArmNetworkSecurityGroupCreate at hrun
    repeat' (first | split at hrun | simp only [] at hrun)
    case h_1 => exact absurd hrun (by simp)
    case h_2.h_1 =>
      simp only [Option.some.injEq, Prod.mk.injEq] at hrun
      rw [← hrun.2.2] at hapi
      simp [hasApiCall] at hapi
    case h_2.h_2.h_1 =>
      simp only [Option.some.injEq, Prod.mk.injEq] at hrun
      rw [← hrun.2.2]
      exact ⟨by simp, List.getLast?_concat _⟩
    case h_2.h_2.h_2.h_1 =>
      simp only [Option.some.injEq, Prod.mk.injEq] at hrun
      rw [← hrun.2.2]
      exact ⟨by simp, List.getLast?_concat _⟩
    case h_2.h_2.h_2.h_2.h_1 =>
      simp only [Option.some.injEq, Prod.mk.injEq] at hrun
      rw [← hrun.2.2]
      exact ⟨by simp, List.getLast?_concat _⟩
    case h_2.h_2.h_2.h_2.h_2.h_1.h_1 => exact absurd hrun (by simp)
    case h_2.h_2.h_2.h_2.h_2.h_1.h_2 =>
      simp only [Option.some.injEq, Prod.mk.injEq] at hrun
      rw [← hrun.2.2]
      exact ⟨by simp, List.getLast?_concat _⟩
    case h_2.h_2.h_2.h_2.h_2.h_1.h_3 => exact absurd hrun (by simp)
    case h_2.h_2.h_2.h_2.h_2.h_2.h_1 => exact absurd hrun (by simp)
    case h_2.h_2.h_2.h_2.h_2.h_2.h_2 =>
      simp only [Option.some.injEq, Prod.mk.injEq] at hrun
      rw [← hrun.2.2]
      exact ⟨by simp, List.getLast?_concat _⟩
    case h_2.h_2.h_2.h_2.h_2.h_2.h_3 =>
      simp only [Option.some.injEq, Prod.mk.injEq] at hrun
      rw [← hrun.2.2]
      exact ⟨by simp, List.getLast?_concat _⟩
  · intro script d d2 e evs hrun
    unfold resourceArmNetworkSecurityGroupDelete at hrun
    split at hrun
    · simp only [Option.some.injEq, Prod.mk.injEq] at hrun
      rw [← hrun.2.2]
      rfl
    · simp only [Option.some.injEq, Prod.mk.injEq] at hrun
      rw [← hrun.2.2]
      rfl

/-- A security group response in provisioning state "Succeeded", used by the
concrete lock witness run. -/
def c5Group : SecurityGroup :=
  { response := { statusCode := 200 }
    id := some (.parseable { resourceGroup := "rg", path := [("networkSecurityGroups", "nsg1")] })
    name := some "nsg1"
    location := some "westus"
    properties := some { securityRules := some [], provisioningState := some "Succeeded" }
    tags := some [] }

/-- A call script for one fully successful create run. -/
def c5CreateScript : NsgCreateScript :=
  { createOrUpdateErr := none
    get := (c5Group, none)
    refreshOutcomes := [(c5Group, none)]
    readScript := { get := (c5Group, none) } }

/-- The trace of the successful create run of `c5CreateScript`. -/
def c5Trace : List Event :=
  [Event.lockByName "nsg1" "azurerm_network_security_group",
   Event.nsgCreateOrUpdate "rg" "nsg1"
     { response := { statusCode := 0 }
       id := none
       name := some "nsg1"
       location := some "westus"
       properties := some { securityRules := some [], provisioningState := none }
       tags := some [] },
   Event.nsgGet "rg" "nsg1",
   Event.nsgGet "rg" "nsg1",
   Event.setId (.parseable { resourceGroup := "rg", path := [("networkSecurityGroups", "nsg1")] }),
   Event.nsgGet "rg" "nsg1",
   Event.unlockByName "nsg1" "azurerm_network_security_group"]

/-- C5, witness for the amended theorem: its create conjunct applied to a
concrete successful run, whose trace starts with the lock acquire and ends
with the release. -/
theorem c5_lock_witness :
    c5Trace.head? = some (.lockByName c5Data.name networkSecurityGroupResourceName) ∧
    c5Trace.getLast? = some (.unlockByName c5Data.name networkSecurityGroupResourceName) :=
  c5_named_lock_amended.2.1 c5CreateScript c5Data c5Data none c5Trace (by rfl) (by rfl)

/-- Number of `CreateOrUpdate` calls to the automation client in a trace. -/
def countAccountCreateCalls (evs : List Event) : Nat :=
  (evs.filter (fun ev => match ev with
    | .accountCreateOrUpdate _ _ _ => true
    | _ => false)).length

theorem autoRead_no_accountCreate (script : AutoReadScript) (d : ResData)
    (d2 : ResData) (e : Option RErr) (evs : List Event)
    (h : resourceArmAutomationAccountRead script d = some (d2, e, evs)) :
    countAccountCreateCalls evs = 0 := by
  unfold resourceArmAutomationAccountRead at h
  rcases script with ⟨resp, gerr⟩
  split at h
  · simp only [Option.some.injEq, Prod.mk.injEq] at h
    rw [← h.2.2]
    rfl
  · simp only at h
    cases gerr with
    | some ge =>
      by_cases hnf : responseWasNotFound resp.response
      · simp only [hnf, if_true, if_pos, Option.some.injEq, Prod.mk.injEq] at h
        rw [← h.2.2]
        rfl
      · rw [Bool.not_eq_true] at hnf
        simp only [hnf, Bool.false_eq_true, if_false, Option.some.injEq,
          Prod.mk.injEq] at h
        rw [← h.2.2]
        rfl
    | none =>
      cases hloc : resp.location with
      | none => simp [hloc] at h
      | some loc =>
        cases hsku : resp.sku with
        | none => simp [hloc, hsku, flattenAndSetSku] at h
        | some s =>
          simp only [hloc, hsku, flattenAndSetSku, Option.bind_eq_bind' ,
            Option.some_bind' , Option.some.injEq, Prod.mk.injEq] at h
          rw [← h.2.2]
          rfl

/-- C6, amended.  Every run of `resourceArmAutomationAccountCreateUpdate`
issues exactly one `CreateOrUpdate` call, as its first action, with the
`AccountCreateOrUpdateParameters` built from the configuration's sku,
location and tags (name and resource group are the call's arguments); the
handler returns an error with the resource ID unchanged and no `d.SetId`
when `CreateOrUpdate` fails, when the read-back `Get` fails, or when the
read-back ID is nil; when those three steps succeed it sets the ID and
delegates to the read handler — whose failure is a fourth error case of the
claim's "exactly when" list, reached with the ID already set; on a
successful re-read the read handler flattens name, location, resource group,
sku and tags back into state. -/
theorem c6_automation_create_amended :
    (∀ (script : AutoCreateScript) (d : ResData) (d2 : ResData) (e : Option RErr)
        (evs : List Event),
      resourceArmAutomationAccountCreateUpdate script d = some (d2, e, evs) →
      (∃ sku, expandSku d.sku = some sku ∧
        countAccountCreateCalls evs = 1 ∧
        evs.head? = some (.accountCreateOrUpdate d.resourceGroupName d.name
          { properties := some { sku := some sku }
            location := some d.location
            tags := some (expandTags d.tags) })) ∧
      ((script.createOrUpdateErr ≠ none ∨ script.get.2 ≠ none ∨
          script.get.1.id = none) →
        e ≠ none ∧ d2.id = d.id ∧ hasSetId evs = false) ∧
      (∀ rid, script.createOrUpdateErr = none → script.get.2 = none →
        script.get.1.id = some rid →
        hasSetId evs = true ∧
        ∃ rEvs, resourceArmAutomationAccountRead script.readScript { d with id := rid }
          = some (d2, e, rEvs))) ∧
    (∀ (rscript : AutoReadScript) (d : ResData) (pid : ParsedId) (d2 : ResData)
        (evs : List Event) (loc : String) (sku : Sku),
      parseAzureResourceID d.id = Except.ok pid →
      rscript.get.2 = none →
      rscript.get.1.location = some loc →
      rscript.get.1.sku = some sku →
      resourceArmAutomationAccountRead rscript d = some (d2, none, evs) →
      d2.name = rscript.get.1.name.getD "" ∧
      d2.location = azureRMNormalizeLocation loc ∧
      d2.resourceGroupName = pid.resourceGroup ∧
      d2.sku = [{ name := some sku.name }] ∧
      d2.tags = flattenTags rscript.get.1.tags) := by
  constructor
  · intro script d d2 e evs hrun
    unfold resourceArmAutomationAccountCreateUpdate at hrun
    repeat' (first | split at hrun | simp only [] at hrun)
    case h_1 => exact absurd hrun (by simp)
    case h_2.h_1 =>
      simp only [Option.some.injEq, Prod.mk.injEq] at hrun
      obtain ⟨hd2, he, hevs⟩ := hrun
      refine ⟨⟨_, by assumption, by rw [← hevs]; rfl, by rw [← hevs]; rfl⟩, ?_, ?_⟩
      · intro _
        exact ⟨by rw [← he]; simp, by rw [← hd2], by rw [← hevs]; rfl⟩
      · intro rid hco2 hget2 hid2
        simp_all
    case h_2.h_2.h_1 =>
      simp only [Option.some.injEq, Prod.mk.injEq] at hrun
      obtain ⟨hd2, he, hevs⟩ := hrun
      refine ⟨⟨_, by assumption, by rw [← hevs]; rfl, by rw [← hevs]; rfl⟩, ?_, ?_⟩
      · intro _
        exact ⟨by rw [← he]; simp, by rw [← hd2], by rw [← hevs]; rfl⟩
      · intro rid hco2 hget2 hid2
        simp_all
    case h_2.h_2.h_2.h_1 =>
      simp only [Option.some.injEq, Prod.mk.injEq] at hrun
      obtain ⟨hd2, he, hevs⟩ := hrun
      refine ⟨⟨_, by assumption, by rw [← hevs]; rfl, by rw [← hevs]; rfl⟩, ?_, ?_⟩
      · intro _
        exact ⟨by rw [← he]; simp, by rw [← hd2], by rw [← hevs]; rfl⟩
      · intro rid hco2 hget2 hid2
        simp_all
    case h_2.h_2.h_2.h_2.h_1 => exact absurd hrun (by simp)
    case h_2.h_2.h_2.h_2.h_2 =>
      rename_i d2b rerr rEvs hread
      have hcnt := autoRead_no_accountCreate _ _ _ _ _ hread
      simp only [Option.some.injEq, Prod.mk.injEq] at hrun
      obtain ⟨hd2, he, hevs⟩ := hrun
      refine ⟨⟨_, by assumption, ?_, by rw [← hevs]; rfl⟩, ?_, ?_⟩
      · rw [← hevs]
        simp [countAccountCreateCalls, List.filter_append, List.length_append] at hcnt ⊢
        exact hcnt
      · intro h0
        rcases h0 with h0 | h0 | h0
        · simp_all
        · simp_all
        · simp_all
      · intro rid hco2 hget2 hid2
        simp only [*, Option.some.injEq] at hid2
        subst hid2
        refine ⟨by rw [← hevs]; simp [hasSetId, hasSetId_append], ?_⟩
        refine ⟨rEvs, ?_⟩
        rw [← hd2, ← he]
        exact hread
  · intro rscript d pid d2 evs loc sku hparse hget hloc hsku hrun
    rcases rscript with ⟨resp, gerr⟩
    simp only at hget hloc hsku
    subst hget
    unfold resourceArmAutomationAccountRead at hrun
    rw [hparse] at hrun
    simp only [hloc, hsku, flattenAndSetSku, Option.bind_eq_bind' ,
      Option.some_bind' , Option.some.injEq, Prod.mk.injEq] at hrun
    obtain ⟨hd2, -, -⟩ := hrun
    rw [← hd2]
    exact ⟨rfl, rfl, rfl, rfl, rfl⟩

/-- The parsed ID of the automation account "acct1" in resource group
"rg". -/
def c6Pid : ParsedId := { resourceGroup := "rg", path := [("automationAccounts", "acct1")] }

/-- The account's ID string. -/
def c6Rid : IdStr := .parseable c6Pid

/-- Configuration of the automation account "acct1" before creation. -/
def c6Data : ResData :=
  { id := .empty, name := "acct1", location := "westus", resourceGroupName := "rg",
    sku := [{ name := some "Basic" }] }

/-- A well-formed account response. -/
def c6GoodAccount : AutomationAccount :=
  { response := { statusCode := 200 }, id := some c6Rid, name := some "acct1",
    location := some "westus", sku := some { name := "Basic" }, tags := some [] }

/-- An account response carrying HTTP 500, used as a failing re-read. -/
def c6FailAccount : AutomationAccount :=
  { response := { statusCode := 500 }, id := some c6Rid }

/-- A call script in which `CreateOrUpdate`, the read-back `Get` and the ID
check all succeed but the final delegated `Read` fails with a non-not-found
error. -/
def c6Script : AutoCreateScript :=
  { createOrUpdateErr := none, get := (c6GoodAccount, none),
    readScript := { get := (c6FailAccount, some "boom") } }

/-- The trace of the run of `c6Script`. -/
def c6Evs : List Event :=
  [Event.accountCreateOrUpdate "rg" "acct1"
     { properties := some { sku := some { name := "Basic" } }
       location := some "westus"
       tags := some [] },
   Event.accountGet "rg" "acct1",
   Event.setId c6Rid,
   Event.accountGet "rg" "acct1"]

/-- C6, counterexample.  The claim says the handler "returns an error exactly
when CreateOrUpdate fails, the subsequent Get fails, or the read-back ID is
nil, and in those cases the resource ID is not set"; in this run all three of
those steps succeed, yet the handler returns an error (the final delegated
`Read` failed) — and the resource ID has been set. -/
theorem c6_counterexample_error_cases :
    c6Script.createOrUpdateErr = none ∧
    c6Script.get.2 = none ∧
    c6Script.get.1.id = some c6Rid ∧
    resourceArmAutomationAccountCreateUpdate c6Script c6Data =
      some ({ c6Data with id := c6Rid }, some (.readAccount "acct1" "boom"), c6Evs) ∧
    ({ c6Data with id := c6Rid } : ResData).id ≠ IdStr.empty ∧
    hasSetId c6Evs = true :=
  ⟨rfl, rfl, rfl, by rfl, by decide, rfl⟩

/-- A call script for a fully successful create run of the automation
account. -/
def c6GoodScript : AutoCreateScript :=
  { createOrUpdateErr := none, get := (c6GoodAccount, none),
    readScript := { get := (c6GoodAccount, none) } }

/-- C6, witness for the amended theorem: its create conjunct applied to the
fully successful concrete run. -/
theorem c6_create_witness :
    hasSetId c6Evs = true ∧
    ∃ rEvs, resourceArmAutomationAccountRead c6GoodScript.readScript
      { c6Data with id := c6Rid } = some ({ c6Data with id := c6Rid }, none, rEvs) :=
  (c6_automation_create_amended.1 c6GoodScript c6Data { c6Data with id := c6Rid }
    none c6Evs (by rfl)).2.2 c6Rid rfl rfl rfl

/-- C7: the `access` and `direction` attributes of a security rule and the
`sku` name of an automation account attach `ignoreCaseDiffSuppressFunc`, so
two values differing only in letter case produce no diff, and their
validators (`validation.StringInSlice` with `ignoreCase = true`) accept the
allowed values Allow/Deny, Inbound/Outbound and Basic in any letter case. -/
theorem c7_case_insensitive :
    nsgAccessSchema.diffSuppressFunc = ignoreCaseDiffSuppressFunc ∧
    nsgDirectionSchema.diffSuppressFunc = ignoreCaseDiffSuppressFunc ∧
    automationSkuNameSchema.diffSuppressFunc = ignoreCaseDiffSuppressFunc ∧
    (∀ k a b : String, goToLower a = goToLower b →
      ignoreCaseDiffSuppressFunc k a b = true) ∧
    (∀ v : String, goToLower v = goToLower securityRuleAccessAllow ∨
      goToLower v = goToLower securityRuleAccessDeny →
      nsgAccessSchema.validateFunc v = true) ∧
    (∀ v : String, goToLower v = goToLower securityRuleDirectionInbound ∨
      goToLower v = goToLower securityRuleDirectionOutbound →
      nsgDirectionSchema.validateFunc v = true) ∧
    (∀ v : String, goToLower v = goToLower automationSkuBasic →
      automationSkuNameSchema.validateFunc v = true) := by
  refine ⟨rfl, rfl, rfl, ?_, ?_, ?_, ?_⟩
  · intro k a b h
    simp [ignoreCaseDiffSuppressFunc, h]
  · intro v h
    rcases h with h | h <;>
      simp [nsgAccessSchema, stringInSlice, ← h]
  · intro v h
    rcases h with h | h <;>
      simp [nsgDirectionSchema, stringInSlice, ← h]
  · intro v h
    simp [automationSkuNameSchema, stringInSlice, ← h]

/-- C7, witness: the suppression and the validators applied at concretely
re-cased values. -/
theorem c7_case_witness :
    ignoreCaseDiffSuppressFunc "access" "ALLOW" "allow" = true ∧
    nsgAccessSchema.validateFunc "DENY" = true ∧
    nsgDirectionSchema.validateFunc "inbound" = true ∧
    automationSkuNameSchema.validateFunc "BASIC" = true :=
  ⟨c7_case_insensitive.2.2.2.1 "access" "ALLOW" "allow" (by rfl),
   c7_case_insensitive.2.2.2.2.1 "DENY" (Or.inr (by rfl)),
   c7_case_insensitive.2.2.2.2.2.1 "inbound" (Or.inl (by rfl)),
   c7_case_insensitive.2.2.2.2.2.2 "BASIC" (by rfl)⟩

/-- The parsed ID used by the read-reconciliation witness. -/
def c3Pid : ParsedId := { resourceGroup := "rg", path := [("networkSecurityGroups", "nsg1")] }

/-- Resource data with a parseable stored ID. -/
def c3Data : ResData := { id := .parseable c3Pid }

/-- A read script whose `Get` fails with a 404 response. -/
def c3Script : NsgReadScript :=
  { get := ({ response := { statusCode := 404 } }, some "gone") }

/-- C3, witness: the read-reconciliation theorem applied to a concrete 404
run, which clears the resource ID and returns nil. -/
theorem c3_read_witness :
    ({ c3Data with id := .empty } : ResData).id = IdStr.empty ∧
    (none : Option RErr) = none :=
  (c3_read_not_found_reconciliation.1 c3Script c3Data c3Pid
    { c3Data with id := .empty } none
    [Event.nsgGet "rg" "nsg1", Event.setId .empty] "gone" rfl (by rfl) rfl).1 rfl

/-- Resource data for the polling witness. -/
def c4Data : ResData :=
  { id := .parseable { resourceGroup := "rg", path := [("networkSecurityGroups", "nsg1")] }
    name := "nsg1"
    location := "westus"
    resourceGroupName := "rg" }

/-- A security group response that has reached "Succeeded". -/
def c4Group : SecurityGroup :=
  { response := { statusCode := 200 }
    id := some (.parseable { resourceGroup := "rg", path := [("networkSecurityGroups", "nsg1")] })
    name := some "nsg1"
    location := some "westus"
    properties := some { securityRules := some [], provisioningState := some "Succeeded" }
    tags := some [] }

/-- A call script for one fully successful create run, whose single refresh
returns "Succeeded". -/
def c4Script : NsgCreateScript :=
  { createOrUpdateErr := none
    get := (c4Group, none)
    refreshOutcomes := [(c4Group, none)]
    readScript := { get := (c4Group, none) } }

/-- The trace of the successful create run of `c4Script`. -/
def c4Trace : List Event :=
  [Event.lockByName "nsg1" "azurerm_network_security_group",
   Event.nsgCreateOrUpdate "rg" "nsg1"
     { response := { statusCode := 0 }
       id := none
       name := some "nsg1"
       location := some "westus"
       properties := some { securityRules := some [], provisioningState := none }
       tags := some [] },
   Event.nsgGet "rg" "nsg1",
   Event.nsgGet "rg" "nsg1",
   Event.setId (.parseable { resourceGroup := "rg", path := [("networkSecurityGroups", "nsg1")] }),
   Event.nsgGet "rg" "nsg1",
   Event.unlockByName "nsg1" "azurerm_network_security_group"]

/-- C4, witness: the polling theorem applied to the concrete successful run;
since the run succeeded, its wait ended in "Succeeded". -/
theorem c4_poll_witness :
    ∃ wEvs, waitForState nsgStateConf c4Data.resourceGroupName c4Data.name
      c4Script.refreshOutcomes = some (.ok "Succeeded", wEvs) :=
  ((c4_create_provisioning_poll.2.2.2 c4Script c4Data c4Data none c4Trace
    (by rfl)).1 (Or.inl rfl))

/-- The parsed ID used by the delete witness. -/
def c9Pid : ParsedId := { resourceGroup := "rg", path := [("automationAccounts", "acct1")] }

/-- Resource data with a parseable stored automation account ID. -/
def c9Data : ResData := { id := .parseable c9Pid }

/-- A delete script whose `Delete` errors with a 404 response. -/
def c9Script : AutoDeleteScript :=
  { delete := ({ statusCode := 404 }, some "gone") }

/-- C9, witness: the delete theorem applied to a concrete 404 delete, which
returns nil. -/
theorem c9_delete_witness : (none : Option RErr) = none :=
  ((c9_delete_not_found.1 c9Script c9Data c9Pid c9Data none
    [Event.accountDeleteCall "rg" "acct1"] rfl (by rfl)).2 "gone" rfl).1 rfl
